import Mathlib

/-!
Shallow embedding of the newspaper-archiver pipeline (link discovery,
content extraction, media acquisition, date-partitioned storage with a
persisted dedup index) and proofs of the specification claims about it.

The repository contains two versions of the storage layer and of the
scraper; where a claim touches both, both are embedded and marked V1
(src/src/storage.js first class, src/src/scraper.js) and V2
(src/unnamed/part_005 storage class, src/unnamed/part_006 scraper).
-/

/-! ## Character and string helpers -/

/-- Lower-casing of a character as performed by the JS toLowerCase on
ASCII input (the only range the slug pipeline keeps anyway). -/
def jsLower (c : Char) : Char := c.toLower

/-- Model of the regex class backslash-s (whitespace). -/
def isWsChar (c : Char) : Bool := c.isWhitespace

/-- Characters kept by the slug filter: the regex removes everything that
is not a lowercase letter, a digit, whitespace or a hyphen. -/
def keepChar (c : Char) : Bool := c.isLower || c.isDigit || isWsChar c || c = '-'

/-- Replaces every maximal run of characters satisfying p by the single
character rep, as the JS global regex replace of one-or-more p by rep
does.  The boolean argument records whether we are inside a run. -/
def collapseAux (p : Char → Bool) (rep : Char) : List Char → Bool → List Char
  | [], _ => []
  | c :: cs, inRun =>
    if p c then
      if inRun then collapseAux p rep cs true
      else rep :: collapseAux p rep cs true
    else c :: collapseAux p rep cs false

def collapseRuns (p : Char → Bool) (rep : Char) (l : List Char) : List Char :=
  collapseAux p rep l false

/-- Drops a trailing run of hyphens (the regex hyphen-run anchored at the
end). -/
def dropHyphensEnd (l : List Char) : List Char :=
  (l.reverse.dropWhile (fun c => c = '-')).reverse

/-- The final slug cleanup: the JS replace of a leading hyphen run or a
trailing hyphen run by the empty string. -/
def stripHyphens (l : List Char) : List Char :=
  dropHyphensEnd (l.dropWhile (fun c => c = '-'))

/-- Core of StorageManager.sanitizeTitle: lowercase, delete everything
outside lowercase letters, digits, whitespace and hyphens, turn
whitespace runs into hyphens, collapse hyphen runs, cut to cap
characters, strip leading and trailing hyphens. -/
def sanitizeTitleCore (cap : Nat) (title : String) : List Char :=
  let s1 := title.toList.map jsLower
  let s2 := s1.filter keepChar
  let s3 := collapseRuns isWsChar '-' s2
  let s4 := collapseRuns (fun c => c = '-') '-' s3
  stripHyphens (s4.take cap)

/-- StorageManager.sanitizeTitle with the length cap of the respective
variant (60 in src/src/storage.js, 80 in src/unnamed/part_005); falls
back to the string untitled when everything was stripped away. -/
def sanitizeTitle (cap : Nat) (title : String) : String :=
  let s := sanitizeTitleCore cap title
  if s.isEmpty then "untitled" else String.mk s

/-- Variant of src/src/storage.js (substring cap 60). -/
def sanitizeTitleV1 (title : String) : String := sanitizeTitle 60 title

/-- Variant of src/unnamed/part_005 (substring cap 80). -/
def sanitizeTitleV2 (title : String) : String := sanitizeTitle 80 title

/-- Whitespace trimming at both ends, as JS trim does. -/
def trimChars (l : List Char) : List Char :=
  ((l.dropWhile isWsChar).reverse.dropWhile isWsChar).reverse

/-- Title normalization used by the dedup index: JS toLowerCase then
trim. -/
def normalizeTitle (t : String) : String :=
  String.mk (trimChars (t.toList.map jsLower))

/-! ## Data model -/

/-- An in-content image reference as collected by the extractor. -/
structure ImageRef where
  url : String
  alt : String
  title : String
deriving DecidableEq

/-- A video reference; embeds (recognized video-host iframes) carry the
embed marker and are never downloaded. -/
structure VideoRef where
  url : String
  isEmbed : Bool
deriving DecidableEq

/-- The Article record produced by the content extractor. -/
structure Article where
  url : String
  title : String
  author : String
  publishDate : String
  content : String
  tags : List String
  images : List ImageRef
  videos : List VideoRef
  scrapedAt : String
deriving DecidableEq

/-- One manifest entry of the media downloader.  Download entries carry
a local path; embed entries carry none. -/
structure MediaEntry where
  originalUrl : String
  localPath : Option String
  alt : String
  title : String
  isEmbed : Bool
deriving DecidableEq

/-- The media manifest returned by MediaDownloader.downloadMedia. -/
structure MediaFiles where
  images : List MediaEntry
  videos : List MediaEntry
  pdfs : List MediaEntry
deriving DecidableEq

/-- The committed per-article record built by StorageManager.saveArticle. -/
structure ArticleData where
  id : String
  url : String
  title : String
  author : String
  publishDate : String
  content : String
  tags : List String
  mediaFiles : MediaFiles
  scrapedAt : String
  wordCount : Nat
  folderPath : String
deriving DecidableEq

/-- JS Set.add: appends the element only when it is not yet a member. -/
def addUnique (l : List String) (u : String) : List String :=
  if u ∈ l then l else l ++ [u]

/-- In-memory state of a StorageManager: the article collection and the
two components of the dedup index. -/
structure Storage where
  articles : List ArticleData
  indexUrls : List String
  indexTitles : List String
deriving DecidableEq

/-- StorageManager.isDuplicate: URL membership in the url set, else
membership of the lower-cased trimmed title in the title set. -/
def isDuplicate (st : Storage) (a : Article) : Bool :=
  decide (a.url ∈ st.indexUrls) || decide (normalizeTitle a.title ∈ st.indexTitles)

/-! ## Word count (JS split on whitespace runs, counting the pieces) -/

/-- Number of maximal non-whitespace runs; the flag records whether the
previous character was part of such a run. -/
def nonWsRuns : List Char → Bool → Nat
  | [], _ => 0
  | c :: cs, inRun =>
    if isWsChar c then nonWsRuns cs false
    else (if inRun then 0 else 1) + nonWsRuns cs true

/-- Length of the array produced by the JS split on a whitespace run:
the inner runs plus an empty leading piece when the text starts with
whitespace and an empty trailing piece when it ends with whitespace;
the empty string splits into one empty piece. -/
def jsSplitWsCount (l : List Char) : Nat :=
  match l with
  | [] => 1
  | c :: _ =>
    let lastWs := match l.getLast? with
      | some x => isWsChar x
      | none => false
    nonWsRuns l false + (if isWsChar c then 1 else 0) + (if lastWs then 1 else 0)

def wordCountJs (s : String) : Nat := jsSplitWsCount s.toList

/-! ## Dates and folder paths -/

/-- Local calendar fields of a parsed JS Date. -/
structure DateT where
  year : Nat
  month : Nat
  day : Nat
  hour : Nat
  minute : Nat
  second : Nat
deriving DecidableEq

def monthName : Nat → String
  | 1 => "January"
  | 2 => "February"
  | 3 => "March"
  | 4 => "April"
  | 5 => "May"
  | 6 => "June"
  | 7 => "July"
  | 8 => "August"
  | 9 => "September"
  | 10 => "October"
  | 11 => "November"
  | 12 => "December"
  | _ => "Unknown"

def pad2L (n : Nat) : List Char := [Nat.digitChar (n / 10 % 10), Nat.digitChar (n % 10)]

def pad4L (n : Nat) : List Char :=
  [Nat.digitChar (n / 1000 % 10), Nat.digitChar (n / 100 % 10),
   Nat.digitChar (n / 10 % 10), Nat.digitChar (n % 10)]

def pad2 (n : Nat) : String := String.mk (pad2L n)

def pad4 (n : Nat) : String := String.mk (pad4L n)

/-- The compact date-fns pattern yyyyMMdd-HHmmss, list form. -/
def formatCompactL (d : DateT) : List Char :=
  pad4L d.year ++ pad2L d.month ++ pad2L d.day ++ ['-'] ++
    pad2L d.hour ++ pad2L d.minute ++ pad2L d.second

def formatCompact (d : DateT) : String := String.mk (formatCompactL d)

/-- StorageManager.parseArticleDate: parse, falling back to the current
time when the string does not parse.  The parser pd stands for the JS
Date constructor read in local time. -/
def parseArticleDate (pd : String → Option DateT) (now : DateT) (s : String) : DateT :=
  (pd s).getD now

/-- StorageManager.generateArticleId of the date-partitioned variants:
the prefix article followed by the first 8 hex characters of the MD5 of
the URL.  The md5 argument stands for the hex digest function. -/
def generateArticleId (md5 : String → String) (url : String) : String :=
  "article_" ++ (md5 url).take 8

/-- Folder suffix of the src/src/storage.js saveArticle: always the
8-character URL-hash part of the article id. -/
def disambiguatorV1 (md5 : String → String) (a : Article) : String :=
  (md5 a.url).take 8

/-- Folder suffix of the src/unnamed/part_005 saveArticle: the compact
publish timestamp when the parsed date carries a non-midnight
time-of-day, the 8-character URL-hash otherwise (also when the date does
not parse, in which case the date-fns format call throws and the catch
falls back to the hash). -/
def disambiguatorV2 (md5 : String → String) (pd : String → Option DateT) (a : Article) : String :=
  match pd a.publishDate with
  | some d =>
    if d.hour ≠ 0 ∨ d.minute ≠ 0 ∨ d.second ≠ 0 then formatCompact d
    else (md5 a.url).take 8
  | none => (md5 a.url).take 8

/-- The date segments year, MM-MMMM month, day of the entry path. -/
def datePathSegs (d : DateT) : String :=
  pad4 d.year ++ "/" ++ pad2 d.month ++ "-" ++ monthName d.month ++ "/" ++ pad2 d.day

def folderPathV1 (md5 : String → String) (pd : String → Option DateT) (now : DateT)
    (a : Article) : String :=
  "articles/" ++ datePathSegs (parseArticleDate pd now a.publishDate) ++ "/" ++
    sanitizeTitleV1 a.title ++ "-" ++ disambiguatorV1 md5 a

def folderPathV2 (md5 : String → String) (pd : String → Option DateT) (now : DateT)
    (a : Article) : String :=
  "articles/" ++ datePathSegs (parseArticleDate pd now a.publishDate) ++ "/" ++
    sanitizeTitleV2 a.title ++ "-" ++ disambiguatorV2 md5 pd a

/-! ## Disk state and storage operations -/

/-- Persisted form of the dedup index (index.json). -/
structure IndexFile where
  urls : List String
  titles : List String
  totalArticles : Nat
deriving DecidableEq

/-- The count fields of summary.json. -/
structure Summary where
  totalArticles : Nat
  totalImages : Nat
  totalVideos : Nat
  totalWords : Nat
deriving DecidableEq

/-- The on-disk artifacts the claims are about: the set of created entry
folders, the persisted index, the master list and the summary counts.
The CSV and the date index are further deterministic functions of the
article list and are not tracked field by field. -/
structure Disk where
  folders : List String
  indexFile : Option IndexFile
  articlesFile : Option (List ArticleData)
  summaryFile : Option Summary
deriving DecidableEq

def mkArticleData (md5 : String → String) (a : Article) (m : MediaFiles)
    (fp : String) : ArticleData :=
  { id := generateArticleId md5 a.url, url := a.url, title := a.title,
    author := a.author, publishDate := a.publishDate, content := a.content,
    tags := a.tags, mediaFiles := m, scrapedAt := a.scrapedAt,
    wordCount := wordCountJs a.content, folderPath := fp }

/-- StorageManager.saveArticle of src/src/storage.js: creates the entry
folder (mkdir recursive: a no-op when it exists), writes the entry files
into it, appends the record to the in-memory collection and adds URL and
normalized title to the in-memory index.  The persisted index file is
not touched. -/
def saveArticleOp (md5 : String → String) (pd : String → Option DateT) (now : DateT)
    (st : Storage) (d : Disk) (a : Article) (m : MediaFiles) :
    Storage × Disk × ArticleData :=
  let fp := folderPathV1 md5 pd now a
  let ad := mkArticleData md5 a m fp
  ({ articles := st.articles ++ [ad],
     indexUrls := addUnique st.indexUrls a.url,
     indexTitles := addUnique st.indexTitles (normalizeTitle a.title) },
   { d with folders := addUnique d.folders fp }, ad)

def indexFileOf (st : Storage) : IndexFile :=
  { urls := st.indexUrls, titles := st.indexTitles, totalArticles := st.articles.length }

/-- The count fields computed by createSummaryReport from the in-memory
article list. -/
def summaryOf (articles : List ArticleData) : Summary :=
  { totalArticles := articles.length,
    totalImages := (articles.map (fun a => a.mediaFiles.images.length)).sum,
    totalVideos := (articles.map (fun a => a.mediaFiles.videos.length)).sum,
    totalWords := (articles.map (fun a => a.wordCount)).sum }

/-- StorageManager.saveAllFormats: rewrites the master list, the CSV,
the persisted index, the summary and the date index from the in-memory
state, which it leaves unchanged. -/
def saveAllFormatsOp (st : Storage) (d : Disk) : Storage × Disk :=
  (st,
   { d with articlesFile := some st.articles,
            indexFile := some (indexFileOf st),
            summaryFile := some (summaryOf st.articles) })

/-! ## Orchestrator (src/src/server.js) -/

structure RunReport where
  duplicateDetected : Bool
  saved : Bool
deriving DecidableEq

/-- StorageManager.initialize plus loadIndex on a fresh process: the
article collection starts empty and the index is read from the persisted
file, tolerating a missing file by starting empty. -/
def loadStorage (d : Disk) : Storage :=
  match d.indexFile with
  | some f => { articles := [], indexUrls := f.urls, indexTitles := f.titles }
  | none => { articles := [], indexUrls := [], indexTitles := [] }

/-- scrapeSingleArticle after a successful extraction: the duplicate
check only drives a log line; media download, saveArticle and
saveAllFormats run unconditionally. -/
def singleRunOp (md5 : String → String) (pd : String → Option DateT) (now : DateT)
    (d : Disk) (a : Article) (m : MediaFiles) : Disk × RunReport :=
  let st0 := loadStorage d
  let dup := isDuplicate st0 a
  let r := saveArticleOp md5 pd now st0 d a m
  let r2 := saveAllFormatsOp r.1 r.2.1
  (r2.2, { duplicateDetected := dup, saved := true })

inductive StepOutcome where
  | saved
  | skippedDuplicate
  | failed
deriving DecidableEq

/-- One iteration of the scrapeBulk loop over a candidate: a failed
extraction counts as failed, a duplicate is skipped before any
acquisition or commit, otherwise the article is committed. -/
def bulkStepOp (md5 : String → String) (pd : String → Option DateT) (now : DateT)
    (st : Storage) (d : Disk) (ar : Option Article) (m : MediaFiles) :
    (Storage × Disk) × StepOutcome :=
  match ar with
  | none => ((st, d), .failed)
  | some a =>
    if isDuplicate st a then ((st, d), .skippedDuplicate)
    else
      let r := saveArticleOp md5 pd now st d a m
      ((r.1, r.2.1), .saved)

/-! ## Media downloader (src/unnamed/part_005 MediaDownloader) -/

/-- State of one MediaDownloader instance: the set of URL hashes already
downloaded in this run, the number of network fetches performed and the
files written to the staging area. -/
structure DLState where
  downloadedHashes : List String
  fetches : Nat
  filesWritten : List String
deriving DecidableEq

inductive DLResult where
  | skipped
  | failed
  | ok (relPath : String)
deriving DecidableEq

/-- Splits off the scheme of an absolute http or https URL, returning
the scheme text and the remaining characters. -/
def schemeSplit (u : String) : Option (String × List Char) :=
  if ("https://".toList).isPrefixOf u.toList then some ("https://", u.toList.drop 8)
  else if ("http://".toList).isPrefixOf u.toList then some ("http://", u.toList.drop 7)
  else none

def isHostChar (c : Char) : Bool := c ≠ '/' && c ≠ '?' && c ≠ '#'

/-- Hostname of an absolute http or https URL (the only scheme family
the pipeline produces); none models the throwing URL constructor. -/
def hostOf (u : String) : Option String :=
  (schemeSplit u).map (fun p => String.mk (p.2.takeWhile isHostChar))

/-- Path component of an absolute http or https URL, without query and
fragment. -/
def pathnameOf (u : String) : String :=
  match schemeSplit u with
  | none => ""
  | some (_, rest) =>
    String.mk ((rest.dropWhile isHostChar).takeWhile (fun c => c ≠ '?' && c ≠ '#'))

/-- The extension of the last path segment, without the dot, as
path.extname followed by substring 1 yields it; empty when the segment
has no extension or starts with its only dot. -/
def extnameOf (p : String) : String :=
  let seg := (p.toList.reverse.takeWhile (fun c => c ≠ '/')).reverse
  let extRev := seg.reverse.takeWhile (fun c => c ≠ '.')
  if extRev.length + 1 < seg.length then String.mk extRev.reverse
  else ""

/-- The JS global replace of two consecutive dots by one dot. -/
def replaceDotDot : List Char → List Char
  | '.' :: '.' :: rest => '.' :: replaceDotDot rest
  | c :: rest => c :: replaceDotDot rest
  | [] => []

/-- MediaDownloader.downloadFile.  Dedup by the MD5 of the source URL is
checked before any network traffic: a hash hit is skipped.  Otherwise
the URL is fetched (net returns the declared content type on success and
none on failure, which the code surfaces as a thrown error), a file
extension is derived from the content type, falling back to the URL
extension, falling back to bin, and the file is written under a name
built from the base name and a sanitized description. -/
def downloadFileOp (md5 : String → String) (net : String → Option String)
    (mimeExt : String → Option String) (sanitizeName : String → String)
    (st : DLState) (url baseName desc : String) : DLState × DLResult :=
  let h := md5 url
  if h ∈ st.downloadedHashes then (st, .skipped)
  else
    match net url with
    | none => ({ st with fetches := st.fetches + 1 }, .failed)
    | some contentType =>
      let ext :=
        match mimeExt contentType with
        | some e => e
        | none =>
          let fromUrl := extnameOf (pathnameOf url)
          if fromUrl = "" then "bin" else fromUrl
      let filename :=
        if desc ≠ "" then baseName ++ "_" ++ sanitizeName (desc.take 30) ++ "." ++ ext
        else baseName ++ "." ++ ext
      let cleaned := String.mk (replaceDotDot filename.toList)
      ({ downloadedHashes := st.downloadedHashes ++ [h],
         fetches := st.fetches + 1,
         filesWritten := st.filesWritten ++ [cleaned] }, .ok cleaned)

/-- The image loop of downloadMedia: each reference is attempted with
base name image underscore index and the alt text (or, when empty, the
title) as description; a skipped or failed download contributes no
manifest entry. -/
def downloadImagesAux (md5 : String → String) (net : String → Option String)
    (mimeExt : String → Option String) (sanitizeName : String → String)
    (st : DLState) (i : Nat) : List ImageRef → DLState × List MediaEntry
  | [] => (st, [])
  | img :: rest =>
    let desc := if img.alt ≠ "" then img.alt else img.title
    let r := downloadFileOp md5 net mimeExt sanitizeName st img.url
      ("image_" ++ toString (i + 1)) desc
    let tail := downloadImagesAux md5 net mimeExt sanitizeName r.1 (i + 1) rest
    match r.2 with
    | .ok p =>
      (tail.1,
       { originalUrl := img.url, localPath := some p, alt := img.alt,
         title := img.title, isEmbed := false } :: tail.2)
    | _ => tail

/-- The video loop of downloadMedia: embeds are recorded without any
download; files are attempted like images, without a description. -/
def downloadVideosAux (md5 : String → String) (net : String → Option String)
    (mimeExt : String → Option String) (sanitizeName : String → String)
    (st : DLState) (i : Nat) : List VideoRef → DLState × List MediaEntry
  | [] => (st, [])
  | v :: rest =>
    if v.isEmbed then
      let tail := downloadVideosAux md5 net mimeExt sanitizeName st (i + 1) rest
      (tail.1,
       { originalUrl := v.url, localPath := none, alt := "", title := "",
         isEmbed := true } :: tail.2)
    else
      let r := downloadFileOp md5 net mimeExt sanitizeName st v.url
        ("video_" ++ toString (i + 1)) ""
      let tail := downloadVideosAux md5 net mimeExt sanitizeName r.1 (i + 1) rest
      match r.2 with
      | .ok p =>
        (tail.1,
         { originalUrl := v.url, localPath := some p, alt := "", title := "",
           isEmbed := false } :: tail.2)
      | _ => tail

/-- MediaDownloader.downloadMedia: images then videos, threading the
per-run hash set. -/
def downloadMediaOp (md5 : String → String) (net : String → Option String)
    (mimeExt : String → Option String) (sanitizeName : String → String)
    (st : DLState) (a : Article) : DLState × MediaFiles :=
  let ri := downloadImagesAux md5 net mimeExt sanitizeName st 0 a.images
  let rv := downloadVideosAux md5 net mimeExt sanitizeName ri.1 0 a.videos
  (rv.1, { images := ri.2, videos := rv.2, pdfs := [] })

/-! ## Link discovery (src/src/scraper.js) -/

def containsSub (pat : List Char) : List Char → Bool
  | [] => pat.isEmpty
  | c :: rest => pat.isPrefixOf (c :: rest) || containsSub pat rest

/-- Substring test on strings, modelling a literal regex fragment. -/
def strContains (s pat : String) : Bool := containsSub pat.toList s.toList

def anyTailSat (p : List Char → Bool) : List Char → Bool
  | [] => p []
  | c :: rest => p (c :: rest) || anyTailSat p rest

/-- Matches the date-segment regex slash four digits slash two digits
slash two digits slash at the head of the list. -/
def dateSegAt : List Char → Bool
  | '/' :: a :: b :: c :: d :: '/' :: e :: f :: '/' :: g :: h :: '/' :: _ =>
    a.isDigit && b.isDigit && c.isDigit && d.isDigit && e.isDigit && f.isDigit &&
      g.isDigit && h.isDigit
  | _ => false

/-- Matches the year-segment regex slash four digits slash at the head
of the list. -/
def yearSegAt : List Char → Bool
  | '/' :: a :: b :: c :: d :: '/' :: _ => a.isDigit && b.isDigit && c.isDigit && d.isDigit
  | _ => false

/-- The non-HTML extension denylist, applied case-insensitively at the
end of the URL. -/
def hasExcludedExt (u : String) : Bool :=
  let lower := u.toList.map jsLower
  [".jpg", ".png", ".gif", ".pdf", ".xml", ".json", ".css", ".js"].any
    (fun e => e.toList.isSuffixOf lower)

/-- The article-shaped inclusion patterns of NewspaperScraper
looksLikeArticle in src/src/scraper.js. -/
def hasArticlePattern (u : String) : Bool :=
  strContains u "/article/" || strContains u "/news/" || strContains u "/story/" ||
    strContains u "/post/" || anyTailSat dateSegAt u.toList || strContains u "/blog/" ||
    strContains u "/press/" || anyTailSat yearSegAt u.toList

/-- The exclusion denylist of NewspaperScraper looksLikeArticle in
src/src/scraper.js. -/
def hasExcludePattern (u : String) : Bool :=
  strContains u "/tag/" || strContains u "/category/" || strContains u "/author/" ||
    strContains u "/search/" || strContains u "/page/" || strContains u "/archive/" ||
    hasExcludedExt u || decide (u.toList.getLast? = some '#') || strContains u "?p=" ||
    strContains u "/feed/" || strContains u "/wp-"

/-- looksLikeArticle: at least one inclusion pattern and no exclusion
pattern. -/
def looksLikeArticle (u : String) : Bool :=
  hasArticlePattern u && !hasExcludePattern u

/-- Resolution of a relative href against the listing page URL, the way
the URL constructor resolves the simple hrefs the pipeline meets
(absolute path or plain relative reference, no dot-dot segments). -/
def resolveAgainst (url base : String) : String :=
  match schemeSplit base with
  | none => url
  | some (sch, rest) =>
    let origin := sch ++ String.mk (rest.takeWhile isHostChar)
    if ("/".toList).isPrefixOf url.toList then origin ++ url
    else
      let dirRev := (pathnameOf base).toList.reverse.dropWhile (fun c => c ≠ '/')
      let dir := if dirRev.isEmpty then "/" else String.mk dirRev.reverse
      origin ++ dir ++ url

/-- NewspaperScraper.makeAbsoluteUrl. -/
def makeAbsoluteUrl (url base : String) : String :=
  if ("http".toList).isPrefixOf url.toList then url
  else if ("//".toList).isPrefixOf url.toList then "https:" ++ url
  else resolveAgainst url base

/-- The loop body of discoverArticleLinks: resolve the href, keep the
absolute URL when its hostname equals the listing hostname and it looks
like an article; an unparsable URL is silently dropped. -/
def discoverStep (baseUrl dom : String) (acc : List String) (href : String) : List String :=
  let u := makeAbsoluteUrl href baseUrl
  match hostOf u with
  | some hu => if hu = dom && looksLikeArticle u then addUnique acc u else acc
  | none => acc

/-- NewspaperScraper.discoverArticleLinks over the hrefs harvested by
the selector sweep: resolve each href, keep it when its hostname equals
the listing hostname and it looks like an article, collect into an
insertion-ordered set. -/
def discoverArticleLinks (hrefs : List String) (baseUrl : String) : List String :=
  match hostOf baseUrl with
  | none => []
  | some dom => hrefs.foldl (discoverStep baseUrl dom) []

/-! ## Title extraction and the scrape retry loop -/

/-- The selector walk of extractTitle: the page is abstracted to the
candidate text each selector yields (none when the selector matches
nothing or the meta attribute is absent).  The first candidate whose
length exceeds the lower bound and is strictly below 300 wins; the
default title is returned otherwise.  The lower bound is 0 in
src/src/scraper.js and 10 in src/unnamed/part_006. -/
def extractTitleWalk (lowBound : Nat) : List (Option String) → String
  | [] => "Untitled Article"
  | none :: rest => extractTitleWalk lowBound rest
  | some t :: rest =>
    if lowBound < t.length ∧ t.length < 300 then t else extractTitleWalk lowBound rest

/-- The content validation gate of scrapeArticle: empty or
shorter-than-100 body text is treated as a failed attempt. -/
def validContent (c : String) : Bool := decide (¬(c = "" ∨ c.length < 100))

/-- The scrapeArticle retry loop, driven by the stream of per-attempt
outcomes (none models a navigation or extraction error, some an
extracted article).  Each failed or invalid attempt consumes one unit of
the retry budget; an exhausted budget yields none. -/
def scrapeLoop : Nat → List (Option Article) → Option Article
  | 0, _ => none
  | _ + 1, [] => none
  | n + 1, o :: rest =>
    match o with
    | some a => if validContent a.content then some a else scrapeLoop n rest
    | none => scrapeLoop n rest

/-! ## Shared helper lemmas -/

theorem mem_addUnique_self (l : List String) (u : String) : u ∈ addUnique l u := by
  unfold addUnique
  split
  · assumption
  · exact List.mem_append_right _ (List.mem_singleton.mpr rfl)

theorem mem_addUnique_iff (l : List String) (u v : String) :
    v ∈ addUnique l u ↔ v ∈ l ∨ v = u := by
  unfold addUnique
  split
  · rename_i h
    constructor
    · exact Or.inl
    · rintro (hv | hv)
      · exact hv
      · exact hv ▸ h
  · simp [List.mem_append]

theorem addUnique_of_mem {l : List String} {u : String} (h : u ∈ l) :
    addUnique l u = l := by
  unfold addUnique
  exact if_pos h

theorem addUnique_idem (l : List String) (u : String) :
    addUnique (addUnique l u) u = addUnique l u :=
  addUnique_of_mem (mem_addUnique_self l u)

/-! ## Claim C2: the duplicate predicate -/

/-- Claim C2: isDuplicate holds exactly when the exact URL is in the
index url set or the lower-cased trimmed title is in the index title
set; consequently, once an article is committed, any article whose title
normalizes to the same string is flagged as a duplicate. -/
theorem isDuplicate_iff_url_or_normTitle :
    (∀ (st : Storage) (a : Article),
      isDuplicate st a = true ↔
        (a.url ∈ st.indexUrls ∨ normalizeTitle a.title ∈ st.indexTitles)) ∧
    (∀ (md5 : String → String) (pd : String → Option DateT) (now : DateT)
      (st : Storage) (d : Disk) (a1 a2 : Article) (m : MediaFiles),
      normalizeTitle a1.title = normalizeTitle a2.title →
      isDuplicate (saveArticleOp md5 pd now st d a1 m).1 a2 = true) := by
  constructor
  · intro st a
    simp [isDuplicate]
  · intro md5 pd now st d a1 a2 m h
    have hmem : normalizeTitle a2.title ∈ addUnique st.indexTitles (normalizeTitle a1.title) := by
      rw [← h]
      exact mem_addUnique_self _ _
    simp [isDuplicate, saveArticleOp, hmem]

/-- Concrete instance of the normalized-title consequence: a second
article whose title differs only in case and surrounding whitespace from
a committed one is reported as a duplicate. -/
theorem isDuplicate_iff_url_or_normTitle_witness :
    normalizeTitle "  Breaking NEWS " = normalizeTitle "breaking news" ∧
    isDuplicate
      (saveArticleOp (fun _ => "0123456789abcdef") (fun _ => none) ⟨2024, 1, 15, 0, 0, 0⟩
        ⟨[], [], []⟩ ⟨[], none, none, none⟩
        ⟨"https://example.com/news/a", "  Breaking NEWS ", "A", "2024-01-15", "body", [],
          [], [], "t"⟩ ⟨[], [], []⟩).1
      ⟨"https://example.com/news/b", "breaking news", "B", "2024-01-15", "body", [],
        [], [], "t"⟩ = true :=
  ⟨by decide,
   isDuplicate_iff_url_or_normTitle.2 (fun _ => "0123456789abcdef") (fun _ => none)
     ⟨2024, 1, 15, 0, 0, 0⟩ ⟨[], [], []⟩ ⟨[], none, none, none⟩
     ⟨"https://example.com/news/a", "  Breaking NEWS ", "A", "2024-01-15", "body", [],
       [], [], "t"⟩
     ⟨"https://example.com/news/b", "breaking news", "B", "2024-01-15", "body", [],
       [], [], "t"⟩ ⟨[], [], []⟩ (by decide)⟩

/-! ## Claim C8: commit updates only the in-memory index -/

/-- Claim C8: saveArticle adds the URL and the normalized title to the
in-memory index but leaves the persisted index file exactly as it was;
only saveAllFormats rewrites the persisted index, from the in-memory
state. -/
theorem commit_updates_memory_index_only :
    ∀ (md5 : String → String) (pd : String → Option DateT) (now : DateT)
      (st : Storage) (d : Disk) (a : Article) (m : MediaFiles),
      (saveArticleOp md5 pd now st d a m).2.1.indexFile = d.indexFile ∧
      (saveArticleOp md5 pd now st d a m).1.indexUrls = addUnique st.indexUrls a.url ∧
      (saveArticleOp md5 pd now st d a m).1.indexTitles =
        addUnique st.indexTitles (normalizeTitle a.title) ∧
      (saveAllFormatsOp st d).2.indexFile = some (indexFileOf st) := by
  intro md5 pd now st d a m
  exact ⟨rfl, rfl, rfl, rfl⟩

/-! ## Claim C9: exporting twice yields the same summary counts -/

/-- Claim C9: saveAllFormats does not change the in-memory state, and a
second export with no commit in between writes exactly the same summary
counts, namely the counts computed from the unchanged article list. -/
theorem exportAll_twice_same_summary :
    ∀ (st : Storage) (d : Disk),
      (saveAllFormatsOp st d).1 = st ∧
      (saveAllFormatsOp (saveAllFormatsOp st d).1 (saveAllFormatsOp st d).2).2.summaryFile =
        (saveAllFormatsOp st d).2.summaryFile ∧
      (saveAllFormatsOp st d).2.summaryFile = some (summaryOf st.articles) := by
  intro st d
  exact ⟨rfl, rfl, rfl⟩

/-! ## Claim C7: the body-length validity gate and the retry budget -/

/-- An attempt outcome that does not produce a valid article: either a
failed fetch or an extraction whose body is below the threshold. -/
def shortOutcome : Option Article → Bool
  | none => true
  | some a => decide (a.content.length < 100)

/-- Claim C7: an extraction whose body text is shorter than the minimum
threshold is treated exactly like a fetch failure and consumes one retry
attempt; a body of at least the threshold is accepted immediately; when
every attempt in the budget fails or is too short the loop returns none;
and in the bulk loop a none result counts the candidate as failed
without touching the archive state. -/
theorem short_content_is_retryable_failure :
    (∀ (n : Nat) (a : Article) (rest : List (Option Article)),
      a.content.length < 100 →
      scrapeLoop (n + 1) (some a :: rest) = scrapeLoop (n + 1) (none :: rest)) ∧
    (∀ (n : Nat) (a : Article) (rest : List (Option Article)),
      100 ≤ a.content.length →
      scrapeLoop (n + 1) (some a :: rest) = some a) ∧
    (∀ (budget : Nat) (os : List (Option Article)),
      (∀ o ∈ os, shortOutcome o = true) →
      scrapeLoop budget os = none) ∧
    (∀ (md5 : String → String) (pd : String → Option DateT) (now : DateT)
      (st : Storage) (d : Disk) (m : MediaFiles),
      bulkStepOp md5 pd now st d none m = ((st, d), .failed)) := by
  refine ⟨?_, ?_, ?_, ?_⟩
  · intro n a rest h
    have hv : validContent a.content = false := by
      simp [validContent]
      intro _
      exact h
    simp [scrapeLoop, hv]
  · intro n a rest h
    have hne : a.content ≠ "" := by
      intro he
      rw [he] at h
      simp at h
    have hv : validContent a.content = true := by
      simp [validContent]
      exact ⟨hne, h⟩
    simp [scrapeLoop, hv]
  · intro budget
    induction budget with
    | zero => intro os _; rfl
    | succ n ih =>
      intro os h
      match os with
      | [] => rfl
      | none :: rest =>
        simp only [scrapeLoop]
        exact ih rest (fun o ho => h o (List.mem_cons_of_mem _ ho))
      | some a :: rest =>
        have ha : a.content.length < 100 := by
          have := h (some a) (List.mem_cons_self _ _)
          simpa [shortOutcome] using this
        have hv : validContent a.content = false := by
          simp [validContent]
          intro _
          exact ha
        simp only [scrapeLoop, hv]
        exact ih rest (fun o ho => h o (List.mem_cons_of_mem _ ho))
  · intro md5 pd now st d m
    rfl

set_option maxRecDepth 8000 in
/-- Concrete instance of the validity gate: a 40-character body consumes
the attempt like a failure and a budget of all-short attempts reports
the candidate failed, while a 500-character body is accepted. -/
theorem short_content_is_retryable_failure_witness :
    (String.mk (List.replicate 40 'x')).length < 100 ∧
    100 ≤ (String.mk (List.replicate 500 'y')).length ∧
    scrapeLoop 3
      [some ⟨"u", "t", "a", "d", String.mk (List.replicate 40 'x'), [], [], [], "s"⟩,
       none,
       some ⟨"u", "t", "a", "d", String.mk (List.replicate 40 'x'), [], [], [], "s"⟩] =
      none ∧
    scrapeLoop 3
      [some ⟨"u", "t", "a", "d", String.mk (List.replicate 500 'y'), [], [], [], "s"⟩] =
      some ⟨"u", "t", "a", "d", String.mk (List.replicate 500 'y'), [], [], [], "s"⟩ :=
  ⟨by decide, by decide,
   short_content_is_retryable_failure.2.2.1 3
     [some ⟨"u", "t", "a", "d", String.mk (List.replicate 40 'x'), [], [], [], "s"⟩,
      none,
      some ⟨"u", "t", "a", "d", String.mk (List.replicate 40 'x'), [], [], [], "s"⟩]
     (by decide),
   short_content_is_retryable_failure.2.1 2
     ⟨"u", "t", "a", "d", String.mk (List.replicate 500 'y'), [], [], [], "s"⟩ []
     (by decide)⟩

/-! ## Claim C6: title selector walk and its length bounds -/

set_option maxRecDepth 8000 in
/-- Counterexample to claim C6 as stated: a candidate title of exactly
300 characters lies within the claimed interval, open at 10 and closed
at 300, yet both variants of the walk reject it (the code compares with
strictly-less-than 300) and fall through to the default title. -/
theorem extractTitle_accepts_300_refuted :
    (10 < (String.mk (List.replicate 300 'a')).length ∧
      (String.mk (List.replicate 300 'a')).length ≤ 300) ∧
    extractTitleWalk 10 [some (String.mk (List.replicate 300 'a'))] = "Untitled Article" ∧
    extractTitleWalk 0 [some (String.mk (List.replicate 300 'a'))] = "Untitled Article" := by
  refine ⟨⟨?_, ?_⟩, ?_, ?_⟩ <;> decide

/-- Claim C6 amended: the walk returns the first candidate whose length
lies strictly between the lower bound (10, or 0 in the permissive
variant) and 300 — the upper bound is exclusive, not inclusive — and the
default title when no candidate qualifies. -/
theorem extractTitle_first_in_bounds :
    ∀ (lowBound : Nat) (cands : List (Option String)),
      extractTitleWalk lowBound cands =
        (cands.filterMap
          (fun o => o.bind
            (fun t => if lowBound < t.length ∧ t.length < 300 then some t else none))).headD
          "Untitled Article" := by
  intro lowBound cands
  induction cands with
  | nil => rfl
  | cons o rest ih =>
    match o with
    | none => simpa [extractTitleWalk, List.filterMap_cons] using ih
    | some t =>
      by_cases h : lowBound < t.length ∧ t.length < 300
      · simp [extractTitleWalk, List.filterMap_cons, h]
      · simp [extractTitleWalk, List.filterMap_cons, h, ih]

/-! ## Claim C3: in-run media dedup keyed by the URL hash -/

/-- Claim C3: when the image list carries two references to the
identical source URL (and its hash is not yet in the run's dedup set,
with the network fetch succeeding), the run performs exactly one fetch,
writes exactly one file, records the URL hash once, and the manifest
carries exactly one entry, for that URL; the second reference is skipped
before any network traffic. -/
theorem media_dedup_one_entry_per_url :
    ∀ (md5 : String → String) (net : String → Option String)
      (mimeExt : String → Option String) (sanitizeName : String → String)
      (st : DLState) (u a1 t1 a2 t2 ct : String),
      net u = some ct →
      md5 u ∉ st.downloadedHashes →
      (downloadImagesAux md5 net mimeExt sanitizeName st 0
          [⟨u, a1, t1⟩, ⟨u, a2, t2⟩]).2.length = 1 ∧
      (∀ e ∈ (downloadImagesAux md5 net mimeExt sanitizeName st 0
          [⟨u, a1, t1⟩, ⟨u, a2, t2⟩]).2, e.originalUrl = u) ∧
      (downloadImagesAux md5 net mimeExt sanitizeName st 0
          [⟨u, a1, t1⟩, ⟨u, a2, t2⟩]).1.fetches = st.fetches + 1 ∧
      (downloadImagesAux md5 net mimeExt sanitizeName st 0
          [⟨u, a1, t1⟩, ⟨u, a2, t2⟩]).1.filesWritten.length =
        st.filesWritten.length + 1 ∧
      (downloadImagesAux md5 net mimeExt sanitizeName st 0
          [⟨u, a1, t1⟩, ⟨u, a2, t2⟩]).1.downloadedHashes =
        st.downloadedHashes ++ [md5 u] := by
  intro md5 net mimeExt sanitizeName st u a1 t1 a2 t2 ct hnet hnew
  have hmem : md5 u ∈ st.downloadedHashes ++ [md5 u] :=
    List.mem_append_right _ (List.mem_singleton.mpr rfl)
  simp only [downloadImagesAux, downloadFileOp, if_neg hnew, hnet, if_pos hmem]
  refine ⟨?_, ?_, ?_, ?_, ?_⟩ <;> simp

/-- Concrete instance of the media dedup: two references to the same
image URL in one run yield one fetch and one manifest entry. -/
theorem media_dedup_one_entry_per_url_witness :
    (fun _ : String => some "image/jpeg") "https://example.com/pic.jpg" =
      some "image/jpeg" ∧
    "https://example.com/pic.jpg" ∉ ([] : List String) ∧
    (downloadImagesAux (fun s => s) (fun _ => some "image/jpeg") (fun _ => some "jpg")
        (fun s => s) ⟨[], 0, []⟩ 0
        [⟨"https://example.com/pic.jpg", "a front view", ""⟩,
         ⟨"https://example.com/pic.jpg", "the same picture", ""⟩]).2.length = 1 ∧
    (downloadImagesAux (fun s => s) (fun _ => some "image/jpeg") (fun _ => some "jpg")
        (fun s => s) ⟨[], 0, []⟩ 0
        [⟨"https://example.com/pic.jpg", "a front view", ""⟩,
         ⟨"https://example.com/pic.jpg", "the same picture", ""⟩]).1.fetches = 0 + 1 :=
  ⟨rfl, by decide,
   (media_dedup_one_entry_per_url (fun s => s) (fun _ => some "image/jpeg")
      (fun _ => some "jpg") (fun s => s) ⟨[], 0, []⟩ "https://example.com/pic.jpg"
      "a front view" "" "the same picture" "" "image/jpeg" rfl (by decide)).1,
   (media_dedup_one_entry_per_url (fun s => s) (fun _ => some "image/jpeg")
      (fun _ => some "jpg") (fun s => s) ⟨[], 0, []⟩ "https://example.com/pic.jpg"
      "a front view" "" "the same picture" "" "image/jpeg" rfl (by decide)).2.2.1⟩

/-! ## Claim C5: discovery precision -/

theorem mem_discoverStep (base dom : String) (acc : List String) (h u : String) :
    u ∈ discoverStep base dom acc h ↔
      u ∈ acc ∨
        (makeAbsoluteUrl h base = u ∧ hostOf (makeAbsoluteUrl h base) = some dom ∧
          looksLikeArticle (makeAbsoluteUrl h base) = true) := by
  unfold discoverStep
  cases hh : hostOf (makeAbsoluteUrl h base) with
  | none => simp [hh]
  | some hu =>
    simp only [hh]
    by_cases hc : hu = dom ∧ looksLikeArticle (makeAbsoluteUrl h base) = true
    · rw [if_pos (by simp [hc.1, hc.2])]
      rw [mem_addUnique_iff]
      constructor
      · rintro (hm | he)
        · exact Or.inl hm
        · exact Or.inr ⟨he.symm, by rw [hc.1], hc.2⟩
      · rintro (hm | ⟨he, _, _⟩)
        · exact Or.inl hm
        · exact Or.inr he.symm
    · rw [if_neg ?_]
      · constructor
        · exact Or.inl
        · rintro (hm | ⟨_, hd, hl⟩)
          · exact hm
          · exact absurd ⟨Option.some.inj hd, hl⟩ hc
      · intro hb
        simp only [Bool.and_eq_true, decide_eq_true_eq] at hb
        exact hc ⟨hb.1, hb.2⟩

theorem mem_foldl_discoverStep (base dom : String) :
    ∀ (hrefs acc : List String) (u : String),
      u ∈ List.foldl (discoverStep base dom) acc hrefs ↔
        u ∈ acc ∨ ∃ h, h ∈ hrefs ∧ makeAbsoluteUrl h base = u ∧
          hostOf u = some dom ∧ looksLikeArticle u = true := by
  intro hrefs
  induction hrefs with
  | nil => intro acc u; simp
  | cons h t ih =>
    intro acc u
    rw [List.foldl_cons, ih, mem_discoverStep]
    constructor
    · rintro ((hm | ⟨he, hh, hl⟩) | ⟨h2, hm2, he2, hh2, hl2⟩)
      · exact Or.inl hm
      · exact Or.inr ⟨h, List.mem_cons_self _ _, he, he ▸ hh, he ▸ hl⟩
      · exact Or.inr ⟨h2, List.mem_cons_of_mem _ hm2, he2, hh2, hl2⟩
    · rintro (hm | ⟨h2, hm2, he2, hh2, hl2⟩)
      · exact Or.inl (Or.inl hm)
      · rcases List.mem_cons.mp hm2 with he | hmem
        · subst he
          exact Or.inl (Or.inr ⟨he2, by rw [he2]; exact hh2, by rw [he2]; exact hl2⟩)
        · exact Or.inr ⟨h2, hmem, he2, hh2, hl2⟩

theorem nodup_addUnique {l : List String} (hl : l.Nodup) (u : String) :
    (addUnique l u).Nodup := by
  unfold addUnique
  split
  · exact hl
  · rename_i hnm
    simp [List.nodup_append, hl, hnm]

theorem nodup_foldl_discoverStep (base dom : String) :
    ∀ (hrefs acc : List String), acc.Nodup →
      (List.foldl (discoverStep base dom) acc hrefs).Nodup := by
  intro hrefs
  induction hrefs with
  | nil => intro acc h; exact h
  | cons h t ih =>
    intro acc hacc
    rw [List.foldl_cons]
    apply ih
    cases hh : hostOf (makeAbsoluteUrl h base) with
    | none => simpa [discoverStep, hh] using hacc
    | some hu =>
      simp only [discoverStep, hh]
      split
      · exact nodup_addUnique hacc _
      · exact hacc

/-- Claim C5: a discovered href is kept exactly when its resolved
absolute URL is on the listing domain, matches at least one
article-shaped inclusion pattern and no exclusion pattern; the result is
deduplicated by exact URL string; and on the four-link example page
discovery returns exactly the news link. -/
theorem discovery_keeps_iff_article_shaped :
    (∀ (hrefs : List String) (base dom u : String),
      hostOf base = some dom →
      (u ∈ discoverArticleLinks hrefs base ↔
        ∃ h, h ∈ hrefs ∧ makeAbsoluteUrl h base = u ∧ hostOf u = some dom ∧
          looksLikeArticle u = true)) ∧
    (∀ u : String, looksLikeArticle u = true ↔
      (hasArticlePattern u = true ∧ hasExcludePattern u = false)) ∧
    (∀ (hrefs : List String) (base : String), (discoverArticleLinks hrefs base).Nodup) ∧
    discoverArticleLinks
      ["/news/2024/01/15/headline-123456", "/tag/sports/", "/login", "image.jpg"]
      "https://example.com/" =
      ["https://example.com/news/2024/01/15/headline-123456"] := by
  refine ⟨?_, ?_, ?_, by decide⟩
  · intro hrefs base dom u hdom
    unfold discoverArticleLinks
    rw [hdom]
    rw [mem_foldl_discoverStep]
    simp
  · intro u
    simp [looksLikeArticle]
  · intro hrefs base
    unfold discoverArticleLinks
    cases hostOf base with
    | none => exact List.nodup_nil
    | some dom => exact nodup_foldl_discoverStep base dom hrefs [] List.nodup_nil

/-- Concrete instance of the discovery filter: the news link of the
example page is a member of the discovery result. -/
theorem discovery_keeps_iff_article_shaped_witness :
    hostOf "https://example.com/" = some "example.com" ∧
    "https://example.com/news/2024/01/15/headline-123456" ∈
      discoverArticleLinks
        ["/news/2024/01/15/headline-123456", "/tag/sports/", "/login", "image.jpg"]
        "https://example.com/" :=
  ⟨by decide,
   (discovery_keeps_iff_article_shaped.1
      ["/news/2024/01/15/headline-123456", "/tag/sports/", "/login", "image.jpg"]
      "https://example.com/" "example.com"
      "https://example.com/news/2024/01/15/headline-123456" (by decide)).mpr
     ⟨"/news/2024/01/15/headline-123456", by decide, by decide, by decide, by decide⟩⟩

/-! ## Claim C1: duplicate handling by the orchestrator -/

set_option maxRecDepth 4000 in
/-- Counterexample to claim C1 as stated: in single-article mode, a
second run over an already-committed URL detects the duplicate but does
not skip acquisition and commit — scrapeSingleArticle only logs the
duplicate and then unconditionally downloads media, saves the article
and re-exports. -/
theorem single_mode_recommits_duplicate :
    (singleRunOp (fun _ => "0123456789abcdef") (fun _ => none) ⟨2024, 1, 15, 10, 30, 0⟩
        (singleRunOp (fun _ => "0123456789abcdef") (fun _ => none) ⟨2024, 1, 15, 10, 30, 0⟩
          ⟨[], none, none, none⟩
          ⟨"https://example.com/news/story-1", "Breaking News", "Jane Doe", "2024-01-15",
            "body text", [], [], [], "t"⟩ ⟨[], [], []⟩).1
        ⟨"https://example.com/news/story-1", "Breaking News", "Jane Doe", "2024-01-15",
          "body text", [], [], [], "t"⟩ ⟨[], [], []⟩).2.duplicateDetected = true ∧
    (singleRunOp (fun _ => "0123456789abcdef") (fun _ => none) ⟨2024, 1, 15, 10, 30, 0⟩
        (singleRunOp (fun _ => "0123456789abcdef") (fun _ => none) ⟨2024, 1, 15, 10, 30, 0⟩
          ⟨[], none, none, none⟩
          ⟨"https://example.com/news/story-1", "Breaking News", "Jane Doe", "2024-01-15",
            "body text", [], [], [], "t"⟩ ⟨[], [], []⟩).1
        ⟨"https://example.com/news/story-1", "Breaking News", "Jane Doe", "2024-01-15",
          "body text", [], [], [], "t"⟩ ⟨[], [], []⟩).2.saved = true := by
  constructor <;> decide

/-- Claim C1 amended: only the bulk orchestrator skips a detected
duplicate before acquisition and commit; processing the same article
twice in one bulk run commits exactly one entry and reports the second
occurrence as a duplicate.  Single-article mode always commits — it
reports the duplicate but saves again — yet creates no new entry folder,
because the recommit lands in the folder of the first run. -/
theorem duplicate_handling_by_mode :
    (∀ (md5 : String → String) (pd : String → Option DateT) (now : DateT)
        (st : Storage) (d : Disk) (a : Article) (m : MediaFiles),
      isDuplicate st a = true →
      bulkStepOp md5 pd now st d (some a) m = ((st, d), .skippedDuplicate)) ∧
    (∀ (md5 : String → String) (pd : String → Option DateT) (now : DateT)
        (st : Storage) (d : Disk) (a : Article) (m m' : MediaFiles),
      isDuplicate st a = false →
      (bulkStepOp md5 pd now st d (some a) m).2 = .saved ∧
      (bulkStepOp md5 pd now st d (some a) m).1.1.articles.length =
        st.articles.length + 1 ∧
      bulkStepOp md5 pd now (bulkStepOp md5 pd now st d (some a) m).1.1
          (bulkStepOp md5 pd now st d (some a) m).1.2 (some a) m' =
        ((bulkStepOp md5 pd now st d (some a) m).1, .skippedDuplicate)) ∧
    (∀ (md5 : String → String) (pd : String → Option DateT) (now : DateT)
        (d : Disk) (a : Article) (m : MediaFiles),
      (singleRunOp md5 pd now d a m).2.saved = true) ∧
    (∀ (md5 : String → String) (pd : String → Option DateT) (now : DateT)
        (d : Disk) (a : Article) (m m' : MediaFiles),
      (singleRunOp md5 pd now (singleRunOp md5 pd now d a m).1 a m').1.folders =
        (singleRunOp md5 pd now d a m).1.folders) := by
  refine ⟨?_, ?_, ?_, ?_⟩
  · intro md5 pd now st d a m h
    simp [bulkStepOp, h]
  · intro md5 pd now st d a m m' h
    have hdup2 :
        isDuplicate (saveArticleOp md5 pd now st d a m).1 a = true := by
      simp [isDuplicate, saveArticleOp, mem_addUnique_self]
    refine ⟨?_, ?_, ?_⟩
    · simp [bulkStepOp, h]
    · simp [bulkStepOp, h, saveArticleOp]
    · simp [bulkStepOp, h, hdup2]
  · intro md5 pd now d a m
    rfl
  · intro md5 pd now d a m m'
    simp [singleRunOp, saveArticleOp, saveAllFormatsOp]
    exact addUnique_idem _ _

/-- Concrete instance of the bulk behavior: a fresh index does not flag
the article, and the bulk step commits it. -/
theorem duplicate_handling_by_mode_witness :
    isDuplicate ⟨[], [], []⟩
      ⟨"https://example.com/news/story-1", "Breaking News", "Jane Doe", "2024-01-15",
        "body text", [], [], [], "t"⟩ = false ∧
    (bulkStepOp (fun _ => "0123456789abcdef") (fun _ => none) ⟨2024, 1, 15, 10, 30, 0⟩
        ⟨[], [], []⟩ ⟨[], none, none, none⟩
        (some ⟨"https://example.com/news/story-1", "Breaking News", "Jane Doe",
          "2024-01-15", "body text", [], [], [], "t"⟩) ⟨[], [], []⟩).2 = .saved :=
  ⟨by decide,
   (duplicate_handling_by_mode.2.1 (fun _ => "0123456789abcdef") (fun _ => none)
      ⟨2024, 1, 15, 10, 30, 0⟩ ⟨[], [], []⟩ ⟨[], none, none, none⟩
      ⟨"https://example.com/news/story-1", "Breaking News", "Jane Doe", "2024-01-15",
        "body text", [], [], [], "t"⟩ ⟨[], [], []⟩ ⟨[], [], []⟩ (by decide)).1⟩

/-! ## Claim C4: the folder-name disambiguator -/

theorem digitChar_inj_lt10 : ∀ a < 10, ∀ b < 10, Nat.digitChar a = Nat.digitChar b → a = b := by
  decide

theorem pad2L_inj {a b : Nat} (ha : a < 100) (hb : b < 100) (h : pad2L a = pad2L b) :
    a = b := by
  simp only [pad2L, List.cons.injEq, and_true] at h
  have e1 : a / 10 % 10 = b / 10 % 10 :=
    digitChar_inj_lt10 _ (Nat.mod_lt _ (by norm_num)) _ (Nat.mod_lt _ (by norm_num)) h.1
  have e2 : a % 10 = b % 10 :=
    digitChar_inj_lt10 _ (Nat.mod_lt _ (by norm_num)) _ (Nat.mod_lt _ (by norm_num)) h.2
  omega

theorem formatCompactL_ne_of_time_ne {d1 d2 : DateT}
    (hy : d1.year = d2.year) (hmo : d1.month = d2.month) (hd : d1.day = d2.day)
    (h1h : d1.hour < 100) (h1m : d1.minute < 100) (h1s : d1.second < 100)
    (h2h : d2.hour < 100) (h2m : d2.minute < 100) (h2s : d2.second < 100)
    (hne : ¬(d1.hour = d2.hour ∧ d1.minute = d2.minute ∧ d1.second = d2.second)) :
    formatCompactL d1 ≠ formatCompactL d2 := by
  intro heq
  unfold formatCompactL at heq
  rw [hy, hmo, hd] at heq
  obtain ⟨heq1, hs⟩ := List.append_inj' heq rfl
  obtain ⟨heq2, hm⟩ := List.append_inj' heq1 rfl
  have hh := List.append_cancel_left heq2
  exact hne ⟨pad2L_inj h1h h2h hh, pad2L_inj h1m h2m hm, pad2L_inj h1s h2s hs⟩

theorem disambiguatorV2_of_time (md5 : String → String) (pd : String → Option DateT)
    (a : Article) (d : DateT) (hpd : pd a.publishDate = some d)
    (h : d.hour ≠ 0 ∨ d.minute ≠ 0 ∨ d.second ≠ 0) :
    disambiguatorV2 md5 pd a = formatCompact d := by
  simp [disambiguatorV2, hpd, h]

theorem disambiguatorV2_of_midnight (md5 : String → String) (pd : String → Option DateT)
    (a : Article) (d : DateT) (hpd : pd a.publishDate = some d)
    (h : d.hour = 0 ∧ d.minute = 0 ∧ d.second = 0) :
    disambiguatorV2 md5 pd a = (md5 a.url).take 8 := by
  simp [disambiguatorV2, hpd, h.1, h.2.1, h.2.2]

set_option maxRecDepth 4000 in
/-- Counterexample to claim C4 as stated: in the src/src/storage.js
variant of saveArticle, an article whose parsed publish timestamp
carries the non-midnight time 14:30:22 still receives the hash suffix as
its folder disambiguator, not the compact timestamp; only the
src/unnamed/part_005 variant applies the timestamp rule. -/
theorem storage_v1_ignores_timestamp_refuted :
    disambiguatorV1 (fun _ => "aabbccdd11223344")
      ⟨"https://example.com/news/x", "Same Day", "A", "2024-01-15T14:30:22",
        "body", [], [], [], "t"⟩ = "aabbccdd" ∧
    disambiguatorV2 (fun _ => "aabbccdd11223344")
      (fun s => if s = "2024-01-15T14:30:22" then some ⟨2024, 1, 15, 14, 30, 22⟩ else none)
      ⟨"https://example.com/news/x", "Same Day", "A", "2024-01-15T14:30:22",
        "body", [], [], [], "t"⟩ = "20240115-143022" ∧
    ("aabbccdd" : String) ≠ "20240115-143022" := by
  refine ⟨?_, ?_, ?_⟩ <;> decide

/-- Claim C4 amended: the timestamp-or-hash disambiguator rule holds in
the part_005 storage variant — compact timestamp for a parsed
non-midnight time, hash suffix for midnight or an unparseable date —
while the src/src/storage.js variant always uses the hash suffix.  In
the part_005 variant, two articles with the same title, published the
same calendar day with distinct valid sub-day timestamps, commit into
distinct folders. -/
theorem disambiguator_rule_by_variant :
    (∀ (md5 : String → String) (pd : String → Option DateT) (a : Article) (d : DateT),
      pd a.publishDate = some d →
      (d.hour ≠ 0 ∨ d.minute ≠ 0 ∨ d.second ≠ 0) →
      disambiguatorV2 md5 pd a = formatCompact d) ∧
    (∀ (md5 : String → String) (pd : String → Option DateT) (a : Article) (d : DateT),
      pd a.publishDate = some d →
      d.hour = 0 ∧ d.minute = 0 ∧ d.second = 0 →
      disambiguatorV2 md5 pd a = (md5 a.url).take 8) ∧
    (∀ (md5 : String → String) (pd : String → Option DateT) (a : Article),
      pd a.publishDate = none →
      disambiguatorV2 md5 pd a = (md5 a.url).take 8) ∧
    (∀ (md5 : String → String) (a : Article),
      disambiguatorV1 md5 a = (md5 a.url).take 8) ∧
    (∀ (md5 : String → String) (pd : String → Option DateT) (now : DateT)
        (a1 a2 : Article) (d1 d2 : DateT),
      a1.title = a2.title →
      pd a1.publishDate = some d1 → pd a2.publishDate = some d2 →
      d1.year = d2.year → d1.month = d2.month → d1.day = d2.day →
      d1.hour < 24 → d1.minute < 60 → d1.second < 60 →
      d2.hour < 24 → d2.minute < 60 → d2.second < 60 →
      (d1.hour ≠ 0 ∨ d1.minute ≠ 0 ∨ d1.second ≠ 0) →
      (d2.hour ≠ 0 ∨ d2.minute ≠ 0 ∨ d2.second ≠ 0) →
      ¬(d1.hour = d2.hour ∧ d1.minute = d2.minute ∧ d1.second = d2.second) →
      folderPathV2 md5 pd now a1 ≠ folderPathV2 md5 pd now a2) := by
  refine ⟨disambiguatorV2_of_time, disambiguatorV2_of_midnight, ?_, ?_, ?_⟩
  · intro md5 pd a hpd
    simp [disambiguatorV2, hpd]
  · intro md5 a
    rfl
  · intro md5 pd now a1 a2 d1 d2 ht hpd1 hpd2 hy hmo hd b1h b1m b1s b2h b2m b2s hnm1 hnm2 hne
    intro heq
    unfold folderPathV2 at heq
    rw [disambiguatorV2_of_time md5 pd a1 d1 hpd1 hnm1,
        disambiguatorV2_of_time md5 pd a2 d2 hpd2 hnm2] at heq
    rw [ht] at heq
    have hdate : parseArticleDate pd now a1.publishDate = d1 := by
      simp [parseArticleDate, hpd1]
    have hdate2 : parseArticleDate pd now a2.publishDate = d2 := by
      simp [parseArticleDate, hpd2]
    rw [hdate, hdate2] at heq
    have hsegs : datePathSegs d1 = datePathSegs d2 := by
      unfold datePathSegs
      rw [hy, hmo, hd]
    rw [hsegs] at heq
    have hdata := congrArg String.data heq
    simp only [String.data_append] at hdata
    have hlists := List.append_cancel_left hdata
    have : formatCompactL d1 = formatCompactL d2 := hlists
    exact formatCompactL_ne_of_time_ne hy hmo hd (by omega) (by omega) (by omega)
      (by omega) (by omega) (by omega) hne this

/-- Concrete instance of the part_005 disambiguator rule: with a parsed
time of 14:30:22 the folder suffix is the compact timestamp. -/
theorem disambiguator_rule_by_variant_witness :
    (fun s => if s = "2024-01-15T14:30:22" then
        some (⟨2024, 1, 15, 14, 30, 22⟩ : DateT) else none) "2024-01-15T14:30:22" =
      some ⟨2024, 1, 15, 14, 30, 22⟩ ∧
    disambiguatorV2 (fun _ => "aabbccdd11223344")
      (fun s => if s = "2024-01-15T14:30:22" then some ⟨2024, 1, 15, 14, 30, 22⟩ else none)
      ⟨"https://example.com/news/x", "Same Day", "A", "2024-01-15T14:30:22",
        "body", [], [], [], "t"⟩ = formatCompact ⟨2024, 1, 15, 14, 30, 22⟩ :=
  ⟨by decide,
   disambiguator_rule_by_variant.1 (fun _ => "aabbccdd11223344")
     (fun s => if s = "2024-01-15T14:30:22" then some ⟨2024, 1, 15, 14, 30, 22⟩ else none)
     ⟨"https://example.com/news/x", "Same Day", "A", "2024-01-15T14:30:22",
       "body", [], [], [], "t"⟩ ⟨2024, 1, 15, 14, 30, 22⟩ (by decide)
     (by simp)⟩

/-! ## Claim C10: the slug invariant -/

/-- The characters a finished slug may contain. -/
def isSlugChar (c : Char) : Bool := c.isLower || c.isDigit || c = '-'

/-- The filesystem-safety invariant of the folder-name slug: non-empty,
within the cap, only lowercase letters, digits and hyphens, no hyphen at
either end and no two consecutive hyphens. -/
def SlugOk (cap : Nat) (s : String) : Prop :=
  s ≠ "" ∧ s.length ≤ cap ∧ (∀ c ∈ s.toList, isSlugChar c = true) ∧
    s.toList.head? ≠ some '-' ∧ s.toList.getLast? ≠ some '-' ∧
    List.Chain' (fun a b => ¬(a = '-' ∧ b = '-')) s.toList

theorem mem_collapseAux {p : Char → Bool} {rep : Char} :
    ∀ (l : List Char) (b : Bool) (c : Char), c ∈ collapseAux p rep l b →
      c = rep ∨ (c ∈ l ∧ p c = false) := by
  intro l
  induction l with
  | nil => intro b c h; simp [collapseAux] at h
  | cons x xs ih =>
    intro b c h
    simp only [collapseAux] at h
    split at h
    · rename_i hx
      split at h
      · rcases ih true c h with h1 | ⟨h2, h3⟩
        · exact Or.inl h1
        · exact Or.inr ⟨List.mem_cons_of_mem _ h2, h3⟩
      · rcases List.mem_cons.mp h with h1 | h1
        · exact Or.inl h1
        · rcases ih true c h1 with h2 | ⟨h3, h4⟩
          · exact Or.inl h2
          · exact Or.inr ⟨List.mem_cons_of_mem _ h3, h4⟩
    · rename_i hx
      rcases List.mem_cons.mp h with h1 | h1
      · refine Or.inr ⟨h1 ▸ List.mem_cons_self _ _, ?_⟩
        rw [h1]
        exact Bool.not_eq_true _ ▸ (Bool.of_not_eq_true hx)
      · rcases ih false c h1 with h2 | ⟨h3, h4⟩
        · exact Or.inl h2
        · exact Or.inr ⟨List.mem_cons_of_mem _ h3, h4⟩

theorem collapseHyp_spec :
    ∀ (l : List Char) (b : Bool),
      List.Chain' (fun a c => ¬(a = '-' ∧ c = '-'))
        (collapseAux (fun c => c = '-') '-' l b) ∧
      (∀ c0, (collapseAux (fun c => c = '-') '-' l true).head? = some c0 → c0 ≠ '-') := by
  intro l
  induction l with
  | nil =>
    intro b
    constructor
    · simp [collapseAux]
    · intro c0 h
      simp [collapseAux] at h
  | cons x xs ih =>
    intro b
    constructor
    · simp only [collapseAux]
      split
      · rename_i hx
        split
        · exact (ih true).1
        · rw [List.chain'_cons']
          refine ⟨?_, (ih true).1⟩
          intro y hy
          intro hcontra
          exact (ih true).2 y hy hcontra.2
      · rename_i hx
        rw [List.chain'_cons']
        refine ⟨?_, (ih false).1⟩
        intro y hy
        intro hcontra
        simp at hx
        exact hx hcontra.1
    · intro c0 h
      simp only [collapseAux] at h
      split at h
      · exact (ih true).2 c0 h
      · rename_i hx
        simp at hx
        rw [List.head?_cons] at h
        intro hc
        exact hx ((Option.some.inj h) ▸ hc)

theorem dropHyphensEnd_isPrefix (m : List Char) : dropHyphensEnd m <+: m := by
  unfold dropHyphensEnd
  have h := List.dropWhile_suffix (l := m.reverse) (fun c => c = '-')
  have h2 : (m.reverse.dropWhile (fun c => c = '-')).reverse <+: m.reverse.reverse :=
    List.reverse_prefix.mpr h
  rwa [List.reverse_reverse] at h2

theorem stripHyphens_isInfix (l : List Char) : stripHyphens l <:+: l := by
  unfold stripHyphens
  exact (dropHyphensEnd_isPrefix _).isInfix.trans
    (List.dropWhile_suffix (fun c => c = '-')).isInfix

theorem head?_isPrefix_eq {l m : List Char} (h : l <+: m) {c : Char}
    (hc : l.head? = some c) : m.head? = some c := by
  obtain ⟨t, ht⟩ := h
  cases l with
  | nil => simp at hc
  | cons x xs =>
    rw [List.head?_cons] at hc
    rw [← ht]
    simpa using hc

theorem stripHyphens_head {l : List Char} {c : Char}
    (h : (stripHyphens l).head? = some c) : c ≠ '-' := by
  have hpre : (stripHyphens l).head? = some c → (l.dropWhile (fun x => x = '-')).head? = some c := by
    intro hh
    exact head?_isPrefix_eq (dropHyphensEnd_isPrefix _) hh
  have hd := hpre h
  have hnot := List.head?_dropWhile_not (fun x => x = '-') l
  rw [hd] at hnot
  simpa using hnot

theorem stripHyphens_getLast {l : List Char} {c : Char}
    (h : (stripHyphens l).getLast? = some c) : c ≠ '-' := by
  unfold stripHyphens dropHyphensEnd at h
  rw [List.getLast?_eq_head?_reverse, List.reverse_reverse] at h
  have hnot := List.head?_dropWhile_not (fun x => x = '-')
    (l.dropWhile (fun x => x = '-')).reverse
  rw [h] at hnot
  simpa using hnot

theorem sanitizeTitleCore_chars (cap : Nat) (t : String) :
    ∀ c ∈ sanitizeTitleCore cap t, isSlugChar c = true := by
  intro c hc
  have h1 : c ∈ (collapseRuns (fun c => c = '-') '-'
      (collapseRuns isWsChar '-' ((t.toList.map jsLower).filter keepChar))).take cap :=
    (stripHyphens_isInfix _).sublist.subset hc
  have h2 := List.take_subset _ _ h1
  rcases mem_collapseAux _ _ _ h2 with h3 | ⟨h3, h4⟩
  · simp [isSlugChar, h3]
  · rcases mem_collapseAux _ _ _ h3 with h5 | ⟨h5, h6⟩
    · exact absurd h5 (by simpa using h4)
    · have hk := (List.mem_filter.mp h5).2
      simp only [keepChar, Bool.or_eq_true] at hk
      rcases hk with ((hl | hd) | hw) | hh
      · simp [isSlugChar, hl]
      · simp [isSlugChar, hd]
      · exact absurd hw (by simp [h6])
      · simp [isSlugChar, hh]

theorem sanitizeTitleCore_length (cap : Nat) (t : String) :
    (sanitizeTitleCore cap t).length ≤ cap :=
  le_trans (List.Sublist.length_le (stripHyphens_isInfix _).sublist)
    (List.length_take_le _ _)

theorem sanitizeTitleCore_chain (cap : Nat) (t : String) :
    List.Chain' (fun a b => ¬(a = '-' ∧ b = '-')) (sanitizeTitleCore cap t) :=
  List.Chain'.infix (((collapseHyp_spec _ false).1).take cap) (stripHyphens_isInfix _)

theorem sanitizeTitleCore_eq_nil_of_noAlnum (cap : Nat) (t : String)
    (h : ∀ c ∈ t.toList, (jsLower c).isLower = false ∧ (jsLower c).isDigit = false) :
    sanitizeTitleCore cap t = [] := by
  have hs4 : ∀ c ∈ (collapseRuns (fun c => c = '-') '-'
      (collapseRuns isWsChar '-' ((t.toList.map jsLower).filter keepChar))).take cap,
      c = '-' := by
    intro c hc
    have hc2 := List.take_subset _ _ hc
    rcases mem_collapseAux _ _ _ hc2 with h1 | ⟨h3, h4⟩
    · exact h1
    · exfalso
      rcases mem_collapseAux _ _ _ h3 with h5 | ⟨h5, h6⟩
      · exact absurd h5 (by simpa using h4)
      · have hk := (List.mem_filter.mp h5).2
        have hm := (List.mem_filter.mp h5).1
        obtain ⟨c0, hc0, hlc⟩ := List.mem_map.mp hm
        have hna := h c0 hc0
        rw [← hlc] at hk h6 h4
        simp only [keepChar, Bool.or_eq_true] at hk
        rcases hk with ((hl | hd) | hw) | hh
        · rw [hna.1] at hl; exact Bool.false_ne_true hl
        · rw [hna.2] at hd; exact Bool.false_ne_true hd
        · rw [h6] at hw; exact Bool.false_ne_true hw
        · exact absurd hh (by simpa using h4)
  have hdrop : (((collapseRuns (fun c => c = '-') '-'
      (collapseRuns isWsChar '-' ((t.toList.map jsLower).filter keepChar))).take
        cap).dropWhile (fun c => c = '-')) = [] :=
    List.dropWhile_eq_nil_iff.mpr (fun x hx => by simp [hs4 x hx])
  show stripHyphens _ = []
  unfold stripHyphens
  rw [hdrop]
  rfl

theorem sanitizeTitle_slugOk (cap : Nat) (t : String) (hcap : 8 ≤ cap) :
    SlugOk cap (sanitizeTitle cap t) := by
  unfold sanitizeTitle
  by_cases hempty : (sanitizeTitleCore cap t).isEmpty = true
  · rw [if_pos hempty]
    have hlen : ("untitled" : String).length = 8 := rfl
    exact ⟨by decide, by omega, by decide, by decide, by decide,
      by simp [List.chain'_cons]⟩
  · rw [if_neg hempty]
    have hne : sanitizeTitleCore cap t ≠ [] := by
      simpa [List.isEmpty_iff] using hempty
    refine ⟨?_, ?_, ?_, ?_, ?_, ?_⟩
    · intro hcon
      apply hne
      simpa using congrArg String.data hcon
    · exact sanitizeTitleCore_length cap t
    · intro c hc
      exact sanitizeTitleCore_chars cap t c hc
    · intro hh
      exact stripHyphens_head hh rfl
    · intro hh
      exact stripHyphens_getLast hh rfl
    · exact sanitizeTitleCore_chain cap t

/-- Claim C10: both sanitizeTitle variants always produce a non-empty
slug of at most 60 respectively 80 characters, made only of lowercase
letters, digits and hyphens, with no hyphen at either end and no run of
consecutive hyphens; a title without any (ASCII) alphanumeric character
yields the fallback slug untitled. -/
theorem slug_always_filesystem_safe (t : String) :
    SlugOk 60 (sanitizeTitleV1 t) ∧ SlugOk 80 (sanitizeTitleV2 t) ∧
    ((∀ c ∈ t.toList, (jsLower c).isLower = false ∧ (jsLower c).isDigit = false) →
      sanitizeTitleV1 t = "untitled" ∧ sanitizeTitleV2 t = "untitled") := by
  refine ⟨sanitizeTitle_slugOk 60 t (by norm_num),
    sanitizeTitle_slugOk 80 t (by norm_num), ?_⟩
  intro h
  constructor
  · unfold sanitizeTitleV1 sanitizeTitle
    rw [sanitizeTitleCore_eq_nil_of_noAlnum 60 t h]
    rfl
  · unfold sanitizeTitleV2 sanitizeTitle
    rw [sanitizeTitleCore_eq_nil_of_noAlnum 80 t h]
    rfl

/-- Concrete instance of the fallback: a title of punctuation only
yields the slug untitled. -/
theorem slug_always_filesystem_safe_witness :
    (∀ c ∈ ("!!! ???" : String).toList,
      (jsLower c).isLower = false ∧ (jsLower c).isDigit = false) ∧
    sanitizeTitleV1 "!!! ???" = "untitled" :=
  ⟨by decide, ((slug_always_filesystem_safe "!!! ???").2.2 (by decide)).1⟩
